import Mathlib

/-
Verification development for the money_muling_detection repository.

The repository ships the React frontend of a money-muling detection
platform; the Python detection pipeline (graph builder, feature
extractors, scoring engine, ring assembler, orchestrator) is described
by the specification but its sources are not in the repository tree.
Frontend functions are embedded directly from their source files;
pipeline-side definitions are modelled from the specification and say
so in their doc comments.

JavaScript numbers are embedded as rationals (ℚ): every numeric
literal and comparison appearing in the embedded code is exact in ℚ,
so the embedded functions agree with the source on all inputs the
claims quantify over.
-/

namespace MMD

/-- Embeds `clamp` from `helpers.js`:
`clamp(val, min, max) = Math.min(max, Math.max(min, val))`. -/
def clamp (val min max : ℚ) : ℚ :=
  Min.min max (Max.max min val)

/-- Embeds `getRiskTier` from `helpers.js`: score thresholds 80/60/40
mapping to CRITICAL/HIGH/MEDIUM, otherwise LOW. -/
def getRiskTier (score : ℚ) : String :=
  if 80 ≤ score then "CRITICAL"
  else if 60 ≤ score then "HIGH"
  else if 40 ≤ score then "MEDIUM"
  else "LOW"

/-- Embeds `getTier` from `SuspiciousAccountsTable.jsx`; textually the
same threshold chain as `getRiskTier`. -/
def getTier (score : ℚ) : String :=
  if 80 ≤ score then "CRITICAL"
  else if 60 ≤ score then "HIGH"
  else if 40 ≤ score then "MEDIUM"
  else "LOW"

/-- Embeds `riskLevelFromScore` from `frontend/src/services/api.ts`;
same thresholds, title-case renderings. -/
def riskLevelFromScore (score : ℚ) : String :=
  if 80 ≤ score then "Critical"
  else if 60 ≤ score then "High"
  else if 40 ≤ score then "Medium"
  else "Low"

/-- The four risk tiers of the specification (§3 AccountScore). -/
inductive RiskTier where
  | LOW | MEDIUM | HIGH | CRITICAL
deriving DecidableEq, Repr

/-- The tier mapping exactly as the specification words it:
CRITICAL ≥ 80, HIGH ≥ 60, MEDIUM ≥ 40, otherwise LOW. -/
def specTier (s : ℚ) : RiskTier :=
  if 80 ≤ s then .CRITICAL
  else if 60 ≤ s then .HIGH
  else if 40 ≤ s then .MEDIUM
  else .LOW

/-- Upper-case rendering of a tier (used by `getRiskTier`/`getTier`). -/
def tierUpper : RiskTier → String
  | .LOW => "LOW"
  | .MEDIUM => "MEDIUM"
  | .HIGH => "HIGH"
  | .CRITICAL => "CRITICAL"

/-- Title-case rendering of a tier (used by `riskLevelFromScore`). -/
def tierTitle : RiskTier → String
  | .LOW => "Low"
  | .MEDIUM => "Medium"
  | .HIGH => "High"
  | .CRITICAL => "Critical"

/-- Modelled from the spec: the per-account feature bundle consumed by the
Scoring Engine (§4.3). The scoring module itself is not in the repository
tree; each Boolean is the signal exactly as §4.2/§4.3 name it, with the
threshold predicates (pagerank > 2× mean, payroll/merchant/gateway shapes,
out_degree ≤ 2) evaluated upstream by the feature extractor. -/
structure Features where
  validated_cycle : Bool
  single_low_cycle : Bool
  fan_in_flag : Bool
  fan_out_flag : Bool
  smurf_flag : Bool
  shell_flag : Bool
  velocity_flag : Bool
  high_pagerank : Bool
  high_betweenness : Bool
  community_member : Bool
  payroll_like : Bool
  merchant_like : Bool
  gateway_like : Bool
  low_out_degree : Bool
deriving DecidableEq, Repr

/-- Modelled from the spec: whether any primary signal fired (§4.3 lists
cycle, fan-in, fan-out, smurfing, shell and velocity as primary). -/
def hasPrimary (f : Features) : Bool :=
  f.validated_cycle || f.single_low_cycle || f.fan_in_flag || f.fan_out_flag ||
    f.smurf_flag || f.shell_flag || f.velocity_flag

/-- Modelled from the spec: the additive primary signals of §4.3
(validated cycle +40, single low-value cycle +10, fan-in +25, fan-out +25,
smurfing +25, shell +30, velocity +20). -/
def primarySum (f : Features) : ℚ :=
  (if f.validated_cycle then 40 else if f.single_low_cycle then 10 else 0) +
    (if f.fan_in_flag then 25 else 0) + (if f.fan_out_flag then 25 else 0) +
    (if f.smurf_flag then 25 else 0) + (if f.shell_flag then 30 else 0) +
    (if f.velocity_flag then 20 else 0)

/-- Modelled from the spec: supporting signals, added only when at least one
primary signal fired (pagerank +5, betweenness +5, community +10). -/
def supportSum (f : Features) : ℚ :=
  if hasPrimary f then
    (if f.high_pagerank then 5 else 0) + (if f.high_betweenness then 5 else 0) +
      (if f.community_member then 10 else 0)
  else 0

/-- Modelled from the spec: the subtractive suppressions of §4.3
(payroll −30, merchant −40, gateway −40, low activity −20 when no primary
signal fired, low-amount single cycle −15). -/
def suppressSum (f : Features) : ℚ :=
  (if f.payroll_like then 30 else 0) + (if f.merchant_like then 40 else 0) +
    (if f.gateway_like then 40 else 0) +
    (if !hasPrimary f && f.low_out_degree then 20 else 0) +
    (if f.single_low_cycle && !f.validated_cycle then 15 else 0)

/-- Modelled from the spec: final score = clamp(sum, 0, 100) (§4.3). -/
def computeScore (f : Features) : ℚ :=
  clamp (primarySum f + supportSum f - suppressSum f) 0 100

/-- The AccountScore record (§3), restricted to the fields the claims
mention: identifier, final score, and the ring back-reference assigned in
stage 4. -/
structure AccountScore where
  account_id : String
  suspicion_score : ℚ
  ring_id : Option String
deriving DecidableEq, Repr

/-- Modelled from the spec: the Scoring Engine maps each analyzed account's
feature bundle to an AccountScore (ring_id is assigned later, in stage 4). -/
def scoreAccounts (feats : List (String × Features)) : List AccountScore :=
  feats.map (fun p => ⟨p.1, computeScore p.2, none⟩)

/-- Modelled from the spec: an account is flagged (appears in
`suspicious_accounts`) iff its final score is ≥ 40 (§4.3, default
`flag_threshold`). -/
def suspiciousOf (scored : List AccountScore) : List AccountScore :=
  scored.filter (fun a => decide (40 ≤ a.suspicion_score))

/-- Embeds the bucket chain of `riskDistribution` in `AnalyticsDashboard`
(part_008): s ≥ 80 Critical, else s ≥ 60 High, else s ≥ 40 Medium, else
Low. (`acc.suspicion_score || 0` is the identity on rationals: 0 is the
only falsy number and it is mapped to 0.) -/
def riskBucket (s : ℚ) : String :=
  if 80 ≤ s then "Critical"
  else if 60 ≤ s then "High"
  else if 40 ≤ s then "Medium"
  else "Low"

/-- Embeds `riskDistribution` from `AnalyticsDashboard` (part_008): the
forEach bucket increments amount to counting the accounts falling in each
bucket; entries with count 0 are filtered out (the `fill` colour field is
dropped). Bucket order Critical, High, Medium, Low is the literal order of
the `buckets` object. -/
def riskDistribution (accounts : List AccountScore) : List (String × Nat) :=
  ([("Critical", (accounts.filter (fun a => riskBucket a.suspicion_score = "Critical")).length),
    ("High", (accounts.filter (fun a => riskBucket a.suspicion_score = "High")).length),
    ("Medium", (accounts.filter (fun a => riskBucket a.suspicion_score = "Medium")).length),
    ("Low", (accounts.filter (fun a => riskBucket a.suspicion_score = "Low")).length)]).filter
    (fun p => decide (0 < p.2))

/-- Embeds the three tier-breakdown cards of `Summary.jsx` (lines 64–83):
counts of suspicious accounts with score ≥ 80, in [60, 80), and in
[40, 60). -/
def tierCardCounts (accounts : List AccountScore) : Nat × Nat × Nat :=
  ((accounts.filter (fun a => decide (80 ≤ a.suspicion_score))).length,
    (accounts.filter (fun a =>
      decide (60 ≤ a.suspicion_score ∧ a.suspicion_score < 80))).length,
    (accounts.filter (fun a =>
      decide (40 ≤ a.suspicion_score ∧ a.suspicion_score < 60))).length)

/-- JavaScript values that can reach `normalizeThreatLevel` through the
`threatLevel` row field: null, undefined, or a string. -/
inductive JVal where
  | jnull
  | jundef
  | jstr (s : String)
deriving DecidableEq, Repr

/-- Embeds JavaScript `String.prototype.toUpperCase`: upper-cases every
character of the string. -/
def toUpperCase (s : String) : String :=
  ⟨s.data.map Char.toUpper⟩

/-- Embeds `normalizeThreatLevel` from `RiskEntitiesTable` (part_005):
`String(value || "LOW").toUpperCase()` — null, undefined and the empty
string are falsy and default to "LOW" — then the CRITICAL/HIGH/MEDIUM
comparison chain with "Low" as the catch-all. -/
def normalizeThreatLevel (value : JVal) : String :=
  let upper := toUpperCase
    (match value with
      | .jnull => "LOW"
      | .jundef => "LOW"
      | .jstr s => if s = "" then "LOW" else s)
  if upper = "CRITICAL" then "Critical"
  else if upper = "HIGH" then "High"
  else if upper = "MEDIUM" then "Medium"
  else "Low"

/-- A value is a case-variant of CRITICAL, HIGH or MEDIUM when it is a
string whose upper-casing is one of those three tokens. -/
def threatCaseVariant (v : JVal) : Prop :=
  ∃ s, v = .jstr s ∧
    (toUpperCase s = "CRITICAL" ∨ toUpperCase s = "HIGH" ∨
      toUpperCase s = "MEDIUM")

/-- A graph link as normalized by `graphPayload` in `GraphView.jsx`
(part_007): source, target, transaction_count, total_amount all present. -/
structure Link where
  source : String
  target : String
  transaction_count : ℚ
  total_amount : ℚ
deriving DecidableEq, Repr

/-- A graph node as carried by the payload: just the account id. -/
structure NodeG where
  id : String
deriving DecidableEq, Repr

/-- The `connected` id set that `filteredGraph` accumulates from the
retained links (both endpoints of every retained link). -/
def connectedIds (links : List Link) : List String :=
  links.foldr (fun l acc => l.source :: l.target :: acc) []

/-- Embeds `filteredGraph` from `GraphView.jsx` (part_007 lines 134–145):
keep the links whose transaction_count and total_amount meet the two
thresholds, then keep exactly the nodes appearing as an endpoint of a
retained link. -/
def filteredGraph (nodes : List NodeG) (links : List Link)
    (minTxCount minTotalAmount : ℚ) : List NodeG × List Link :=
  let links2 := links.filter (fun l =>
    decide (minTxCount ≤ l.transaction_count ∧ minTotalAmount ≤ l.total_amount))
  (nodes.filter (fun n => decide (n.id ∈ connectedIds links2)), links2)

/-- The ordering the specification requires of `suspicious_accounts`
(§4.5): suspicion_score descending, ties broken by account_id ascending. -/
def scoreIdOrder (a b : AccountScore) : Prop :=
  b.suspicion_score < a.suspicion_score ∨
    (a.suspicion_score = b.suspicion_score ∧ a.account_id ≤ b.account_id)

instance : DecidableRel scoreIdOrder := fun a b => by
  unfold scoreIdOrder
  infer_instance

instance : IsTotal AccountScore scoreIdOrder := ⟨by
  intro a b
  rcases lt_trichotomy a.suspicion_score b.suspicion_score with h | h | h
  · exact Or.inr (Or.inl h)
  · rcases le_total a.account_id b.account_id with hid | hid
    · exact Or.inl (Or.inr ⟨h, hid⟩)
    · exact Or.inr (Or.inr ⟨h.symm, hid⟩)
  · exact Or.inl (Or.inl h)⟩

instance : IsTrans AccountScore scoreIdOrder := ⟨by
  intro a b c hab hbc
  rcases hab with h1 | ⟨e1, i1⟩ <;> rcases hbc with h2 | ⟨e2, i2⟩
  · exact Or.inl (h2.trans h1)
  · refine Or.inl ?_
    rw [← e2]
    exact h1
  · refine Or.inl ?_
    rw [e1]
    exact h2
  · exact Or.inr ⟨e1.trans e2, i1.trans i2⟩⟩

/-- Modelled from the spec: the orchestrator sorts `suspicious_accounts`
by suspicion_score descending, ties broken by account_id ascending
(§4.5). -/
def bundleSort (scored : List AccountScore) : List AccountScore :=
  List.insertionSort scoreIdOrder scored

/-- A row of `RiskEntitiesTable` as `Dashboard` (part_016) builds it. -/
structure Row where
  accountId : String
  riskScore : ℚ
  threatLevel : String
  transactionCount : ℚ
deriving DecidableEq, Repr

/-- Embeds the `riskEntities` mapping of `Dashboard` (part_016) applied to
a bundle entry: such an entry has no `risk_score`, `risk_tier` or
`transaction_count` field, so the row carries
`Number(undefined ?? suspicion_score ?? 0) = suspicion_score`,
`String(undefined || "Low") = "Low"`, and `Number(undefined ?? 0) = 0`. -/
def rowOf (a : AccountScore) : Row :=
  ⟨a.account_id, a.suspicion_score, "Low", 0⟩

/-- The row order realised by the default comparator of `sortedRows`
(part_005): `b.riskScore - a.riskScore ≤ 0`. -/
def rowDescRiskOrder (a b : Row) : Prop :=
  b.riskScore ≤ a.riskScore

instance : DecidableRel rowDescRiskOrder := fun a b => by
  unfold rowDescRiskOrder
  infer_instance

/-- Embeds `sortedRows` of `RiskEntitiesTable` (part_005) in its default
state (sortBy = "riskScore", sortDirection = "desc"): a stable sort whose
comparator returns `b.riskScore - a.riskScore`. JavaScript
`Array.prototype.sort` is stable (ES2019), hence the insertion sort. -/
def sortedRowsDefault (rows : List Row) : List Row :=
  List.insertionSort rowDescRiskOrder rows

/-- Modelled from the spec: the flagged members of one enumerated cycle
(§4.4 step 1); a cycle's members form a set of account ids. -/
def flaggedInCycle (flagged : List String) (cyc : List String) : List String :=
  cyc.dedup.filter (fun m => decide (m ∈ flagged))

/-- Modelled from the spec: the union of the member sets of the existing
rings sharing a member with a new cycle ring (§4.4 step 2). -/
def mergedMembers (touched : List (List String)) (mem : List String) : List String :=
  touched.foldr (fun r acc => r ∪ acc) mem

/-- Modelled from the spec: §4.4 steps 1–2 for one cycle: with at least
two flagged members, emit a cycle ring and merge it with every existing
cycle ring sharing a member (the union-find collapse). -/
def addCycleRing (rings : List (List String)) (mem : List String) :
    List (List String) :=
  if 2 ≤ mem.length then
    mergedMembers (rings.filter (fun r => r.any (fun x => decide (x ∈ mem)))) mem ::
      rings.filter (fun r => !r.any (fun x => decide (x ∈ mem)))
  else rings

/-- Modelled from the spec: all cycle rings (§4.4 steps 1–2). -/
def cycleRingSets (flagged : List String) (cycles : List (List String)) :
    List (List String) :=
  cycles.foldl (fun rs c => addCycleRing rs (flaggedInCycle flagged c)) []

/-- Whether an id already belongs to one of the given member sets. -/
def inRings (rings : List (List String)) (x : String) : Bool :=
  rings.any (fun r => decide (x ∈ r))

/-- Modelled from the spec: §4.4 step 3: every Louvain community holding at
least two flagged members not yet assigned to a ring yields a community
ring made of those members. -/
def communityRingSets (flagged : List String) (community : String → Option Nat)
    (cycRings : List (List String)) : List (List String) :=
  let unassigned := flagged.filter (fun x => !inRings cycRings x)
  ((unassigned.filterMap community).dedup.map (fun c =>
    unassigned.filter (fun x => decide (community x = some c)))).filter
    (fun g => decide (2 ≤ g.length))

/-- The FraudRing record (§3), restricted to the fields the claims
mention. -/
structure FraudRing where
  ring_id : String
  member_accounts : List String
  pattern_type : String
deriving DecidableEq, Repr

/-- Zero-padded ring numbering RING_001, RING_002, … (§4.4 step 4). -/
def ringIdStr (i : Nat) : String :=
  "RING_" ++ (if i + 1 < 10 then "00" else if i + 1 < 100 then "0" else "") ++
    toString (i + 1)

/-- Assign ring identifiers in emission order (§4.4 step 4). -/
def attachIds (i : Nat) : List (String × List String) → List FraudRing
  | [] => []
  | (ty, mem) :: rest => ⟨ringIdStr i, mem, ty⟩ :: attachIds (i + 1) rest

/-- Modelled from the spec: the Fraud-Ring Assembler (§4.4): cycle rings,
then community rings over the still-unassigned flagged accounts, numbered
in emission order. -/
def assembleRings (flagged : List String) (cycles : List (List String))
    (community : String → Option Nat) : List FraudRing :=
  let cyc := cycleRingSets flagged cycles
  let comm := communityRingSets flagged community cyc
  attachIds 0 (cyc.map (fun m => ("cycle", m)) ++ comm.map (fun m => ("community", m)))

/-- Modelled from the spec: the ring back-reference of an account: the id
of the ring containing it, if any (§4.4 cross-link, §4.5). -/
def accountRingId (rings : List FraudRing) (x : String) : Option String :=
  (rings.find? (fun r => decide (x ∈ r.member_accounts))).map (fun r => r.ring_id)

/-- A validated input transaction (§3); timestamps are modelled as
rational epoch instants. -/
structure Tx where
  sender : String
  receiver : String
  amount : ℚ
  timestamp : ℚ
deriving DecidableEq, Repr

/-- The EdgeAggregate record (§3). -/
structure EdgeAggregate where
  sender : String
  receiver : String
  total_amount : ℚ
  transaction_count : Nat
  timestamps : List ℚ
deriving DecidableEq, Repr

/-- Modelled from the spec: the Graph Builder coalesces all rows with the
same ordered (sender, receiver) pair into one EdgeAggregate carrying the
summed amount, the row count, and the sorted timestamp list (§4.1). -/
def aggregateEdges (txs : List Tx) : List EdgeAggregate :=
  ((txs.map (fun t => (t.sender, t.receiver))).dedup).map (fun k =>
    let rows := txs.filter (fun t => decide (t.sender = k.1 ∧ t.receiver = k.2))
    ⟨k.1, k.2, (rows.map (fun t => t.amount)).sum, rows.length,
      List.insertionSort (fun a b => a ≤ b) (rows.map (fun t => t.timestamp))⟩)

/-- Modelled from the spec: the node set is the union of senders and
receivers (§4.1). -/
def nodesOf (edges : List EdgeAggregate) : List String :=
  (edges.map (fun e => e.sender) ++ edges.map (fun e => e.receiver)).dedup

/-- The graph_snapshot component of the ResultBundle (§4.5): the node ids
and the edge list. -/
structure GraphSnapshot where
  nodes : List String
  links : List Link
deriving DecidableEq, Repr

/-- Modelled from the spec: graph_snapshot = node list (id only) and edge
list (source, target, total_amount, transaction_count) (§4.5). -/
def snapshotOf (edges : List EdgeAggregate) : GraphSnapshot :=
  ⟨nodesOf edges,
    edges.map (fun e =>
      ⟨e.sender, e.receiver, (e.transaction_count : ℚ), e.total_amount⟩)⟩

/-- The summary component (§4.5): exactly five fields. Wall-clock time is
outside the embedding; the field is carried as 0 so the shape is exact. -/
structure PipelineSummary where
  total_accounts_analyzed : Nat
  suspicious_accounts_flagged : Nat
  fraud_rings_detected : Nat
  processing_time_seconds : ℚ
  cycles_truncated : Bool
deriving DecidableEq, Repr

/-- The ResultBundle (§3): exactly four components. -/
structure ResultBundle where
  suspicious_accounts : List AccountScore
  fraud_rings : List FraudRing
  graph_snapshot : GraphSnapshot
  summary : PipelineSummary
deriving DecidableEq, Repr

/-- What feature extraction hands to scoring and ring assembly: the
per-account feature bundles, the enumerated cycles, the community labels,
and whether the cycle cap was hit (§4.2). -/
structure Extracted where
  feats : List (String × Features)
  cycles : List (List String)
  community : String → Option Nat
  cycles_truncated : Bool

/-- Modelled from the spec: stages 3–5 on an extracted feature bundle:
score every account, flag at threshold 40, assemble rings, cross-link the
ring ids, sort, and summarize (§4.3–§4.5). -/
def pipelineCore (edges : List EdgeAggregate) (ex : Extracted) : ResultBundle :=
  let scored := scoreAccounts ex.feats
  let flagged := suspiciousOf scored
  let rings := assembleRings (flagged.map (fun a => a.account_id)) ex.cycles ex.community
  { suspicious_accounts := (bundleSort flagged).map (fun a =>
      ⟨a.account_id, a.suspicion_score, accountRingId rings a.account_id⟩),
    fraud_rings := rings,
    graph_snapshot := snapshotOf edges,
    summary := ⟨(nodesOf edges).length, (suspiciousOf (scoreAccounts ex.feats)).length,
      rings.length, 0, ex.cycles_truncated⟩ }

/-- The §7 error taxonomy restricted to what the claims exercise. -/
inductive PipelineError where
  | emptyInput
  | internal (msg : String)
deriving DecidableEq, Repr

/-- Modelled from the spec: the orchestrator (§4.5, §7): zero edges after
aggregation surface EmptyInput before any extractor runs; an extractor
exception aborts the run with a structured error; otherwise a complete
bundle is returned. -/
def run_pipeline (txs : List Tx)
    (extract : List EdgeAggregate → Except String Extracted) :
    Except PipelineError ResultBundle :=
  let edges := aggregateEdges txs
  if edges.isEmpty then .error .emptyInput
  else
    match extract edges with
    | .error m => .error (.internal m)
    | .ok ex => .ok (pipelineCore edges ex)

/-- A minimal JSON value type for stating shape claims about the outbound
serialisation (§6). -/
inductive Json where
  | str (s : String)
  | num (q : ℚ)
  | jbool (b : Bool)
  | null
  | arr (xs : List Json)
  | obj (fields : List (String × Json))

/-- The key list of a JSON object (empty for non-objects). -/
def objKeys : Json → List String
  | .obj fields => fields.map (fun p => p.1)
  | _ => []

/-- JSON rendering of a suspicious-account entry. -/
def encodeAccount (a : AccountScore) : Json :=
  .obj [("account_id", .str a.account_id),
    ("suspicion_score", .num a.suspicion_score),
    ("ring_id", match a.ring_id with | some r => .str r | none => .null)]

/-- JSON rendering of a fraud ring. -/
def encodeRing (r : FraudRing) : Json :=
  .obj [("ring_id", .str r.ring_id),
    ("member_accounts", .arr (r.member_accounts.map (fun m => .str m))),
    ("pattern_type", .str r.pattern_type)]

/-- JSON rendering of the graph snapshot. -/
def encodeSnapshot (g : GraphSnapshot) : Json :=
  .obj [("nodes", .arr (g.nodes.map (fun n => .str n))),
    ("links", .arr (g.links.map (fun l =>
      .obj [("source", .str l.source), ("target", .str l.target),
        ("total_amount", .num l.total_amount),
        ("transaction_count", .num l.transaction_count)])))]

/-- Modelled from the spec: the five summary fields, in the order of §6. -/
def encodeSummary (s : PipelineSummary) : Json :=
  .obj [("total_accounts_analyzed", .num (s.total_accounts_analyzed : ℚ)),
    ("suspicious_accounts_flagged", .num (s.suspicious_accounts_flagged : ℚ)),
    ("fraud_rings_detected", .num (s.fraud_rings_detected : ℚ)),
    ("processing_time_seconds", .num s.processing_time_seconds),
    ("cycles_truncated", .jbool s.cycles_truncated)]

/-- Modelled from the spec: the four top-level ResultBundle components
(§3). -/
def encodeBundle (b : ResultBundle) : Json :=
  .obj [("suspicious_accounts", .arr (b.suspicious_accounts.map encodeAccount)),
    ("fraud_rings", .arr (b.fraud_rings.map encodeRing)),
    ("graph_snapshot", encodeSnapshot b.graph_snapshot),
    ("summary", encodeSummary b.summary)]

/-- Optional-string coalescing with JavaScript `||` semantics: the empty
string is falsy. -/
def jsOrStr (v : Option String) (d : String) : String :=
  match v with
  | some s => if s = "" then d else s
  | none => d

/-- A raw suspicious-account object as the backend serialises it; every
field the `normalizeResponse` mapping reads, optional (api.ts). -/
structure RawAccount where
  account_id : String
  suspicion_score : Option ℚ
  risk_level : Option String
  primary_reason : Option String
  explanation : Option String
  detected_patterns : Option (List String)
  explanations : Option (List String)
  ring_id : Option String
deriving DecidableEq, Repr

/-- The frontend SuspiciousAccount shape after normalisation (api.ts):
every field present. -/
structure FrontAccount where
  account_id : String
  suspicion_score : ℚ
  risk_level : String
  primary_reason : String
  explanations : List String
  detected_patterns : List String
  ring_id : Option String
deriving DecidableEq, Repr

/-- A raw fraud-ring object as the backend serialises it (api.ts). -/
structure RawRing where
  ring_id : String
  member_accounts : Option (List String)
  total_amount : Option ℚ
  pattern_type : Option String
  risk_score : Option ℚ
  avg_suspicion : Option ℚ
deriving DecidableEq, Repr

/-- The frontend FraudRing shape after normalisation (api.ts). -/
structure FrontRing where
  ring_id : String
  member_accounts : List String
  total_amount : ℚ
  pattern_type : String
  risk_score : ℚ
  avg_suspicion : ℚ
deriving DecidableEq, Repr

/-- The frontend graph payload: node ids and links (api.ts GraphData). -/
structure FrontGraph where
  nodes : List String
  links : List Link
deriving DecidableEq, Repr

/-- A raw summary object: every key either spelling of the backend can
emit, optional (api.ts). -/
structure RawSummary where
  total_transactions : Option Nat
  total_accounts : Option Nat
  suspicious_count : Option Nat
  fraud_ring_count : Option Nat
  avg_risk_score : Option ℚ
  processing_time_seconds : Option ℚ
  total_accounts_analyzed : Option Nat
  suspicious_accounts_flagged : Option Nat
  fraud_rings_detected : Option Nat
deriving DecidableEq, Repr

/-- The frontend Summary interface (api.ts): every field present. -/
structure FrontSummary where
  total_transactions : Nat
  total_accounts : Nat
  suspicious_count : Nat
  fraud_ring_count : Nat
  avg_risk_score : ℚ
  processing_time_seconds : ℚ
deriving DecidableEq, Repr

/-- The raw JSON body of a backend response as `normalizeResponse` reads
it (api.ts). -/
structure RawResponse where
  graph : Option FrontGraph
  graph_json : Option FrontGraph
  suspicious_accounts : Option (List RawAccount)
  fraud_rings : Option (List RawRing)
  summary : Option RawSummary
deriving DecidableEq, Repr

/-- The normalised UploadResponse the frontend works with (api.ts). -/
structure UploadResponse where
  suspicious_accounts : List FrontAccount
  fraud_rings : List FrontRing
  graph : FrontGraph
  summary : FrontSummary
deriving DecidableEq, Repr

/-- Embeds the per-account mapping inside `normalizeResponse` (api.ts):
`??` falls back only on absent values, `||` also on the empty string; an
absent score makes `riskLevelFromScore(undefined)` fail every `>=` test
and return "Low"; arrays are always truthy, so `||` on them is `??`. -/
def normalizeAccount (a : RawAccount) : FrontAccount :=
  { account_id := a.account_id,
    suspicion_score := a.suspicion_score.getD 0,
    risk_level := jsOrStr a.risk_level
      (match a.suspicion_score with
        | some s => riskLevelFromScore s
        | none => "Low"),
    primary_reason := jsOrStr a.primary_reason (jsOrStr a.explanation
      (jsOrStr (a.detected_patterns.bind List.head?) "")),
    explanations := ((a.explanations).orElse (fun _ => a.detected_patterns)).getD [],
    detected_patterns := a.detected_patterns.getD [],
    ring_id := a.ring_id }

/-- Embeds the per-ring mapping inside `normalizeResponse` (api.ts). -/
def normalizeRing (r : RawRing) : FrontRing :=
  { ring_id := r.ring_id,
    member_accounts := r.member_accounts.getD [],
    total_amount := r.total_amount.getD 0,
    pattern_type := jsOrStr r.pattern_type "unknown",
    risk_score := r.risk_score.getD 0,
    avg_suspicion := ((r.avg_suspicion).orElse (fun _ => r.risk_score)).getD 0 }

/-- Embeds `normalizeResponse` from api.ts (lines 64–100): graph_json is
folded into graph, and every account, ring and summary field receives its
fallback, so the result is a fully populated UploadResponse. -/
def normalizeResponse (raw : RawResponse) : UploadResponse :=
  let graph := ((raw.graph).orElse (fun _ => raw.graph_json)).getD ⟨[], []⟩
  let sus := (raw.suspicious_accounts.getD []).map normalizeAccount
  let rings := (raw.fraud_rings.getD []).map normalizeRing
  { suspicious_accounts := sus,
    fraud_rings := rings,
    graph := graph,
    summary :=
      { total_transactions := ((raw.summary.bind (fun s => s.total_transactions)).orElse
          (fun _ => raw.summary.bind (fun s => s.total_accounts_analyzed))).getD
            graph.links.length,
        total_accounts := ((raw.summary.bind (fun s => s.total_accounts)).orElse
          (fun _ => raw.summary.bind (fun s => s.total_accounts_analyzed))).getD
            graph.nodes.length,
        suspicious_count := ((raw.summary.bind (fun s => s.suspicious_count)).orElse
          (fun _ => raw.summary.bind (fun s => s.suspicious_accounts_flagged))).getD
            sus.length,
        fraud_ring_count := ((raw.summary.bind (fun s => s.fraud_ring_count)).orElse
          (fun _ => raw.summary.bind (fun s => s.fraud_rings_detected))).getD
            rings.length,
        avg_risk_score := (raw.summary.bind (fun s => s.avg_risk_score)).getD 0,
        processing_time_seconds :=
          (raw.summary.bind (fun s => s.processing_time_seconds)).getD 0 } }

/-- The observable outcome of the POST /api/upload fetch: the HTTP ok
flag, the response text (with the `.catch` fallback already applied), and
the parsed JSON body consulted when ok. -/
structure UploadFetchResult where
  ok : Bool
  text : String
  jsonBody : RawResponse
deriving DecidableEq, Repr

/-- Embeds `uploadFile` from api.ts (lines 112–126): a non-ok response
throws an Error carrying the response text; an ok response is parsed and
fully normalised — never a partial result. -/
def uploadFile (res : UploadFetchResult) : Except String UploadResponse :=
  if !res.ok then .error res.text
  else .ok (normalizeResponse res.jsonBody)

/-- The 32-bit truncating multiply, JavaScript `Math.imul` on unsigned
views. -/
def imul32 (a b : Nat) : Nat :=
  (a * b) % 4294967296

/-- One call of the closure returned by `mulberry32`
(InteractiveGraphBackground, part_004): 32-bit add, xors, shifts and
`Math.imul`, then `>>> 0` and division by 2^32. JavaScript's signed `| 0`
views share bit patterns with the unsigned residues used here. Returns
the updated closure state and the produced number in [0, 1). -/
def mulberry32Step (s : Nat) : Nat × ℚ :=
  let s1 := (s + 0x6d2b79f5) % 4294967296
  let t0 := imul32 (Nat.xor s1 (s1 >>> 15)) (Nat.lor 1 s1)
  let t1 := Nat.xor ((t0 + imul32 (Nat.xor t0 (t0 >>> 7)) (Nat.lor 61 t0)) % 4294967296) t0
  (s1, ((Nat.xor t1 (t1 >>> 14) : Nat) : ℚ) / 4294967296)

/-- A background-graph node exactly as `createGraph` initialises it
(part_004 `Node`). -/
structure GNode where
  x : ℚ
  y : ℚ
  r : ℚ
  baseR : ℚ
  vx : ℚ
  vy : ℚ
  hub : Bool
  pulse : ℚ
  pulseSpeed : ℚ
deriving DecidableEq, Repr

/-- The all-zero node used as the (never reached) out-of-range fallback of
the edge-loop index lookups. -/
def zeroGNode : GNode :=
  ⟨0, 0, 0, 0, 0, 0, false, 0, 0⟩

/-- The node loop of `createGraph`: eight generator calls per node in
source evaluation order (baseR, x, y, vx, vy, hub, pulse, pulseSpeed). -/
def buildNodes (w h : ℚ) : Nat → Nat → Nat × List GNode
  | 0, st => (st, [])
  | n + 1, st =>
      let p1 := mulberry32Step st
      let baseR := 1.8 + p1.2 * 3.2
      let p2 := mulberry32Step p1.1
      let p3 := mulberry32Step p2.1
      let p4 := mulberry32Step p3.1
      let p5 := mulberry32Step p4.1
      let p6 := mulberry32Step p5.1
      let p7 := mulberry32Step p6.1
      let p8 := mulberry32Step p7.1
      let node : GNode :=
        ⟨p2.2 * w, p3.2 * h, baseR, baseR, (p4.2 - 0.5) * 0.12, (p5.2 - 0.5) * 0.12,
          decide (p6.2 < 0.12), p7.2, 0.003 + p8.2 * 0.004⟩
      let rest := buildNodes w h n p8.1
      (rest.1, node :: rest.2)

/-- JavaScript `Math.round`: the floor of x + 1/2. -/
def jsRound (q : ℚ) : ℤ :=
  ⌊q + 1 / 2⌋

/-- The ordered (i, j) index pairs of the nested edge loops, i < j, in
loop order. -/
def edgePairs (n : Nat) : List (Nat × Nat) :=
  (List.range n).flatMap (fun i => ((List.range n).drop (i + 1)).map (fun j => (i, j)))

/-- One iteration of the edge loop of `createGraph`. The squared-distance
comparison stands for `Math.sqrt(dx*dx+dy*dy) < maxEdgeDist` (equivalent
for the non-negative operands arising from on-canvas coordinates, both
sides being non-negative), and the `&&` short-circuit means the generator
is consulted only when the distance test passes. -/
def stepEdge (nodes : List GNode) (maxEdgeDist : ℚ)
    (acc : List (Nat × Nat) × Nat) (p : Nat × Nat) : List (Nat × Nat) × Nat :=
  let na := nodes.getD p.1 zeroGNode
  let nb := nodes.getD p.2 zeroGNode
  let dx := na.x - nb.x
  let dy := na.y - nb.y
  if dx * dx + dy * dy < maxEdgeDist * maxEdgeDist then
    let q := mulberry32Step acc.2
    if 0.45 < q.2 then (acc.1 ++ [p], q.1) else (acc.1, q.1)
  else acc

/-- Embeds `createGraph` from InteractiveGraphBackground (part_004): node
count from the viewport area, the node loop, then the i < j edge loop;
the only random source is the mulberry32 stream seeded with 7749 (the
constant `seed | 0` evaluates to 7749). -/
def createGraph (w h density : ℚ) : List GNode × List (Nat × Nat) :=
  let st0 : Nat := 7749
  let count := (jsRound (90 * density * Max.max 1 (w * h / (1920 * 900)))).toNat
  let maxEdgeDist := Min.min w h * 0.18
  let built := buildNodes w h count st0
  let looped := (edgePairs count).foldl (stepEdge built.2 maxEdgeDist) ([], built.1)
  (built.2, looped.1)

end MMD

namespace MMD

/-- Claim C2: every real score is assigned CRITICAL iff it is ≥ 80, HIGH iff
it is in [60, 80), MEDIUM iff it is in [40, 60), LOW iff it is < 40, and
the three tier functions `getRiskTier`, `getTier` and `riskLevelFromScore`
all realize exactly this mapping (up to their casing of the tier names). -/
theorem c2_tier_functions (s : ℚ) :
    (specTier s = .CRITICAL ↔ 80 ≤ s) ∧
    (specTier s = .HIGH ↔ 60 ≤ s ∧ s < 80) ∧
    (specTier s = .MEDIUM ↔ 40 ≤ s ∧ s < 60) ∧
    (specTier s = .LOW ↔ s < 40) ∧
    getRiskTier s = tierUpper (specTier s) ∧
    getTier s = tierUpper (specTier s) ∧
    riskLevelFromScore s = tierTitle (specTier s) := by
  unfold specTier getRiskTier getTier riskLevelFromScore tierUpper tierTitle
  split_ifs with h1 h2 h3 <;> simp_all <;>
    first
      | linarith
      | (constructor <;> (try intro h) <;> linarith)

/-- Claim C3: for min ≤ max, `clamp` lands in [min, max], is the identity on
[min, max], truncates below to min and above to max; consequently the final
score `clamp(sum, 0, 100)` always lies in [0, 100]. -/
theorem c3_clamp :
    (∀ val min max : ℚ, min ≤ max →
      (min ≤ clamp val min max ∧ clamp val min max ≤ max) ∧
      (min ≤ val → val ≤ max → clamp val min max = val) ∧
      (val < min → clamp val min max = min) ∧
      (max < val → clamp val min max = max)) ∧
    (∀ sum : ℚ, 0 ≤ clamp sum 0 100 ∧ clamp sum 0 100 ≤ 100) := by
  constructor
  · intro val mn mx h
    unfold clamp
    refine ⟨⟨?_, ?_⟩, ?_, ?_, ?_⟩
    · exact le_min h (le_max_left mn val)
    · exact min_le_left mx _
    · intro h1 h2
      rw [max_eq_right h1, min_eq_right h2]
    · intro hlt
      rw [max_eq_left hlt.le, min_eq_right h]
    · intro hgt
      rw [max_eq_right (by linarith), min_eq_left hgt.le]
  · intro sum
    unfold clamp
    constructor
    · exact le_min (by norm_num) (le_max_left 0 sum)
    · exact min_le_left _ _

/-- Concrete instantiation of `c3_clamp` at val = 150, min = 0, max = 100. -/
theorem c3_clamp_witness :
    (0 : ℚ) ≤ 100 ∧ clamp 150 0 100 = 100 :=
  ⟨by norm_num, (c3_clamp.1 150 0 100 (by norm_num)).2.2.2 (by norm_num)⟩

end MMD

namespace MMD

/-- Helper: membership in the endpoint accumulation of `filteredGraph`. -/
theorem mem_connectedIds (x : String) (ls : List Link) :
    x ∈ connectedIds ls ↔ ∃ l ∈ ls, x = l.source ∨ x = l.target := by
  induction ls with
  | nil => simp [connectedIds]
  | cons a t ih =>
      simp only [connectedIds, List.foldr_cons, List.mem_cons] at ih ⊢
      constructor
      · rintro (h | h | h)
        · exact ⟨a, Or.inl rfl, Or.inl h⟩
        · exact ⟨a, Or.inl rfl, Or.inr h⟩
        · obtain ⟨l, hl, hx⟩ := ih.mp h
          exact ⟨l, Or.inr hl, hx⟩
      · rintro ⟨l, hl | hl, hx⟩
        · subst hl
          rcases hx with h | h
          · exact Or.inl h
          · exact Or.inr (Or.inl h)
        · exact Or.inr (Or.inr (ih.mpr ⟨l, hl, hx⟩))

/-- Claim C9: `filteredGraph` retains exactly the links meeting both
thresholds, and every retained node is an endpoint of some retained link,
so no filtered graph contains an isolated node. -/
theorem c9_filteredGraph (nodes : List NodeG) (links : List Link)
    (minTxCount minTotalAmount : ℚ) :
    (∀ l : Link, l ∈ (filteredGraph nodes links minTxCount minTotalAmount).2 ↔
      l ∈ links ∧ minTxCount ≤ l.transaction_count ∧
        minTotalAmount ≤ l.total_amount) ∧
    (∀ n ∈ (filteredGraph nodes links minTxCount minTotalAmount).1,
      ∃ l ∈ (filteredGraph nodes links minTxCount minTotalAmount).2,
        n.id = l.source ∨ n.id = l.target) := by
  constructor
  · intro l
    simp [filteredGraph, List.mem_filter]
  · intro n hn
    simp only [filteredGraph, List.mem_filter, decide_eq_true_eq] at hn
    exact (mem_connectedIds n.id _).mp hn.2

/-- Concrete instantiation of `c9_filteredGraph`: with thresholds (2, 0) on
a two-link graph, node A survives and is an endpoint of a retained link. -/
theorem c9_filteredGraph_witness :
    ∃ l ∈ (filteredGraph [⟨"A"⟩, ⟨"B"⟩, ⟨"C"⟩]
        [⟨"A", "B", 2, 50⟩, ⟨"B", "C", 1, 10⟩] 2 0).2,
      (⟨"A"⟩ : NodeG).id = l.source ∨ (⟨"A"⟩ : NodeG).id = l.target :=
  (c9_filteredGraph [⟨"A"⟩, ⟨"B"⟩, ⟨"C"⟩]
    [⟨"A", "B", 2, 50⟩, ⟨"B", "C", 1, 10⟩] 2 0).2 ⟨"A"⟩ (by decide)

/-- Claim C8: `normalizeThreatLevel` is total (always one of Low, Medium,
High, Critical), maps everything that is not a case-variant of CRITICAL,
HIGH or MEDIUM to Low, and is idempotent. -/
theorem c8_normalizeThreatLevel (v : JVal) :
    (normalizeThreatLevel v = "Low" ∨ normalizeThreatLevel v = "Medium" ∨
      normalizeThreatLevel v = "High" ∨ normalizeThreatLevel v = "Critical") ∧
    (¬ threatCaseVariant v → normalizeThreatLevel v = "Low") ∧
    normalizeThreatLevel (.jstr (normalizeThreatLevel v)) =
      normalizeThreatLevel v := by
  have hout : normalizeThreatLevel v = "Low" ∨ normalizeThreatLevel v = "Medium" ∨
      normalizeThreatLevel v = "High" ∨ normalizeThreatLevel v = "Critical" := by
    cases v <;> simp only [normalizeThreatLevel] <;> split_ifs <;> simp
  refine ⟨hout, ?_, ?_⟩
  · intro hnc
    cases v with
    | jnull => decide
    | jundef => decide
    | jstr s =>
        simp only [normalizeThreatLevel]
        by_cases hs : s = ""
        · subst hs; decide
        · simp only [if_neg hs]
          split_ifs with h1 h2 h3
          · exact absurd ⟨s, rfl, Or.inl h1⟩ hnc
          · exact absurd ⟨s, rfl, Or.inr (Or.inl h2)⟩ hnc
          · exact absurd ⟨s, rfl, Or.inr (Or.inr h3)⟩ hnc
          · rfl
  · rcases hout with h | h | h | h <;> rw [h] <;> decide

/-- Concrete instantiation of `c8_normalizeThreatLevel`: the string
"payroll batch" is not a case-variant of the three tokens and maps to
Low. -/
theorem c8_normalizeThreatLevel_witness :
    normalizeThreatLevel (.jstr "payroll batch") = "Low" :=
  (c8_normalizeThreatLevel (.jstr "payroll batch")).2.1 (by
    rintro ⟨s, hs, h⟩
    cases hs
    revert h
    decide)

end MMD

namespace MMD

/-- Claim C4: the bundle's `suspicious_accounts` is ordered so that each
consecutive pair a, b has a.suspicion_score > b.suspicion_score, or equal
scores with a.account_id ≤ b.account_id; and the risk-entities table in
its default state (sort key riskScore, direction desc, stable sort) leaves
such a list unchanged, so the displayed order realizes the same order. -/
theorem c4_suspicious_sorted (scored : List AccountScore) :
    List.Chain' scoreIdOrder (bundleSort scored) ∧
    sortedRowsDefault ((bundleSort scored).map rowOf) =
      (bundleSort scored).map rowOf := by
  constructor
  · exact (List.sorted_insertionSort scoreIdOrder scored).chain'
  · refine List.Sorted.insertionSort_eq ?_
    refine List.Pairwise.map rowOf ?_ (List.sorted_insertionSort scoreIdOrder scored)
    intro a b hab
    rcases hab with h | ⟨e, _⟩
    · exact le_of_lt h
    · exact le_of_eq e.symm

/-- Claim C5: every ResultBundle serialises with exactly the four
top-level components, and its summary with exactly the five fields the
specification names. -/
theorem c5_bundle_shape (b : ResultBundle) :
    objKeys (encodeBundle b) =
      ["suspicious_accounts", "fraud_rings", "graph_snapshot", "summary"] ∧
    objKeys (encodeSummary b.summary) =
      ["total_accounts_analyzed", "suspicious_accounts_flagged",
        "fraud_rings_detected", "processing_time_seconds", "cycles_truncated"] := by
  constructor <;> rfl

/-- Claim C7: an input aggregating to zero edges yields EmptyInput and no
bundle; an extractor error yields no bundle either; and `uploadFile`
either returns the fully normalised response or throws the server's
message — never a partial result. -/
theorem c7_failure_semantics :
    (∀ txs extract, aggregateEdges txs = [] →
      run_pipeline txs extract = .error .emptyInput ∧
        ∀ b, run_pipeline txs extract ≠ .ok b) ∧
    (∀ txs extract m, extract (aggregateEdges txs) = .error m →
      ∀ b, run_pipeline txs extract ≠ .ok b) ∧
    (∀ res : UploadFetchResult,
      (res.ok = true → uploadFile res = .ok (normalizeResponse res.jsonBody)) ∧
      (res.ok = false → uploadFile res = .error res.text)) := by
  refine ⟨?_, ?_, ?_⟩
  · intro txs extract h
    constructor
    · simp only [run_pipeline, h]
      rfl
    · intro b
      simp only [run_pipeline, h]
      simp
  · intro txs extract m h b
    simp only [run_pipeline]
    by_cases he : (aggregateEdges txs).isEmpty
    · simp [he]
    · simp [he, h]
  · intro res
    constructor
    · intro h
      simp [uploadFile, h]
    · intro h
      simp [uploadFile, h]

/-- Concrete instantiation of `c7_failure_semantics`: the empty batch
aggregates to zero edges and surfaces EmptyInput, and a failed fetch
surfaces the server's message. -/
theorem c7_failure_semantics_witness :
    run_pipeline [] (fun _ => .error "boom") = .error .emptyInput ∧
    uploadFile ⟨false, "API Error 400: empty input", ⟨none, none, none, none, none⟩⟩ =
      .error "API Error 400: empty input" :=
  ⟨(c7_failure_semantics.1 [] (fun _ => .error "boom") rfl).1,
    (c7_failure_semantics.2.2
      ⟨false, "API Error 400: empty input", ⟨none, none, none, none, none⟩⟩).2 rfl⟩

/-- Claim C10: `createGraph` is deterministic: calls with equal arguments
return structurally identical node and edge arrays — in this embedding the
per-call mulberry32 closure state (seed 7749) is threaded explicitly, so
the result is a function of (w, h, density) alone. -/
theorem c10_createGraph_deterministic (w h density w2 h2 density2 : ℚ)
    (hw : w = w2) (hh : h = h2) (hd : density = density2) :
    createGraph w h density = createGraph w2 h2 density2 := by
  rw [hw, hh, hd]

/-- Concrete instantiation of `c10_createGraph_deterministic` at the
reference viewport. -/
theorem c10_createGraph_deterministic_witness :
    createGraph 1920 900 1 = createGraph 1920 900 1 :=
  c10_createGraph_deterministic 1920 900 1 1920 900 1 rfl rfl rfl

end MMD

namespace MMD

/-- Helper: when a score is at least 40, its `riskBucket` is never the
Low bucket. -/
theorem riskBucket_ne_low (s : ℚ) (h : 40 ≤ s) : riskBucket s ≠ "Low" := by
  unfold riskBucket
  split_ifs <;> simp_all

/-- Helper: over a list whose scores are all at least 40,
`riskDistribution` contains no Low entry. -/
theorem riskDistribution_no_low (l : List AccountScore)
    (h : ∀ a ∈ l, 40 ≤ a.suspicion_score) :
    ∀ k, ("Low", k) ∉ riskDistribution l := by
  intro k hk
  have hcount : (l.filter (fun a => riskBucket a.suspicion_score = "Low")).length = 0 := by
    rw [List.length_eq_zero, List.filter_eq_nil_iff]
    intro a ha
    simp only [decide_eq_true_eq]
    exact riskBucket_ne_low a.suspicion_score (h a ha)
  simp only [riskDistribution, List.mem_filter, List.mem_cons, List.not_mem_nil,
    or_false, decide_eq_true_eq, Prod.mk.injEq] at hk
  rcases hk with ⟨h1 | h2 | h3 | h4, hpos⟩
  · exact absurd h1.1 (by decide)
  · exact absurd h2.1 (by decide)
  · exact absurd h3.1 (by decide)
  · rw [h4.2, hcount] at hpos
    exact absurd hpos (by decide)

/-- Helper: over a list whose scores are all at least 40, the three
Summary.jsx tier cards partition the list. -/
theorem tierCardCounts_partition (l : List AccountScore)
    (h : ∀ a ∈ l, 40 ≤ a.suspicion_score) :
    (tierCardCounts l).1 + (tierCardCounts l).2.1 + (tierCardCounts l).2.2 =
      l.length := by
  unfold tierCardCounts
  simp only [← List.countP_eq_length_filter]
  induction l with
  | nil => simp
  | cons a t ih =>
      have ha := h a (List.mem_cons_self a t)
      have iht := ih (fun x hx => h x (List.mem_cons_of_mem a hx))
      rw [List.countP_cons, List.countP_cons, List.countP_cons, List.length_cons]
      by_cases h80 : 80 ≤ a.suspicion_score
      · rw [if_pos (by simpa using h80),
          if_neg (by simp only [decide_eq_true_eq]; rintro ⟨-, hc⟩; linarith),
          if_neg (by simp only [decide_eq_true_eq]; rintro ⟨-, hc⟩; linarith)]
        omega
      · by_cases h60 : 60 ≤ a.suspicion_score
        · have e2 : 60 ≤ a.suspicion_score ∧ a.suspicion_score < 80 :=
            ⟨h60, lt_of_not_le h80⟩
          rw [if_neg (by simpa using h80),
            if_pos (by simp only [decide_eq_true_eq]; exact e2),
            if_neg (by simp only [decide_eq_true_eq]; rintro ⟨-, hc⟩; linarith)]
          omega
        · have e3 : 40 ≤ a.suspicion_score ∧ a.suspicion_score < 60 :=
            ⟨ha, lt_of_not_le h60⟩
          rw [if_neg (by simpa using h80),
            if_neg (by simp only [decide_eq_true_eq]; rintro ⟨hcc, -⟩; exact h60 hcc),
            if_pos (by simp only [decide_eq_true_eq]; exact e3)]
          omega

/-- Claim C1: in every pipeline result, each listed suspicious account has
final score ≥ 40; every analyzed account scoring ≥ 40 is listed; an
analyzed account absent from the list scores < 40; consequently the
analytics risk distribution over the list has no Low bucket and the three
Summary tier cards partition the list. -/
theorem c1_flagged_iff_threshold (edges : List EdgeAggregate) (ex : Extracted) :
    (∀ a ∈ (pipelineCore edges ex).suspicious_accounts, 40 ≤ a.suspicion_score) ∧
    (∀ p ∈ ex.feats, 40 ≤ computeScore p.2 →
      ∃ a ∈ (pipelineCore edges ex).suspicious_accounts,
        a.account_id = p.1 ∧ a.suspicion_score = computeScore p.2) ∧
    (∀ p ∈ ex.feats,
      (∀ a ∈ (pipelineCore edges ex).suspicious_accounts, a.account_id ≠ p.1) →
      computeScore p.2 < 40) ∧
    (∀ k, ("Low", k) ∉ riskDistribution (pipelineCore edges ex).suspicious_accounts) ∧
    ((tierCardCounts (pipelineCore edges ex).suspicious_accounts).1 +
      (tierCardCounts (pipelineCore edges ex).suspicious_accounts).2.1 +
      (tierCardCounts (pipelineCore edges ex).suspicious_accounts).2.2 =
      (pipelineCore edges ex).suspicious_accounts.length) := by
  have hmem : ∀ a ∈ (pipelineCore edges ex).suspicious_accounts,
      40 ≤ a.suspicion_score := by
    intro a ha
    simp only [pipelineCore, bundleSort] at ha
    obtain ⟨a0, ha0, rfl⟩ := List.mem_map.mp ha
    have ha1 := (List.mem_insertionSort scoreIdOrder).mp ha0
    have ha2 := (List.mem_filter.mp ha1).2
    simpa using ha2
  have hin : ∀ p ∈ ex.feats, 40 ≤ computeScore p.2 →
      ∃ a ∈ (pipelineCore edges ex).suspicious_accounts,
        a.account_id = p.1 ∧ a.suspicion_score = computeScore p.2 := by
    intro p hp h40
    have h1 : (⟨p.1, computeScore p.2, none⟩ : AccountScore) ∈ scoreAccounts ex.feats :=
      List.mem_map.mpr ⟨p, hp, rfl⟩
    have h2 : (⟨p.1, computeScore p.2, none⟩ : AccountScore) ∈
        suspiciousOf (scoreAccounts ex.feats) :=
      List.mem_filter.mpr ⟨h1, by simpa using h40⟩
    have h3 := (List.mem_insertionSort scoreIdOrder).mpr h2
    refine ⟨(⟨p.1, computeScore p.2,
      accountRingId (assembleRings
        ((suspiciousOf (scoreAccounts ex.feats)).map (fun a => a.account_id))
        ex.cycles ex.community) p.1⟩ : AccountScore), ?_, rfl, rfl⟩
    simp only [pipelineCore, bundleSort]
    exact List.mem_map.mpr ⟨⟨p.1, computeScore p.2, none⟩, h3, rfl⟩
  refine ⟨hmem, hin, ?_, riskDistribution_no_low _ hmem, tierCardCounts_partition _ hmem⟩
  intro p hp hnone
  by_contra hge
  push_neg at hge
  obtain ⟨a, ha, hid, -⟩ := hin p hp hge
  exact hnone a ha hid

/-- Concrete instantiation of `c1_flagged_iff_threshold`: an account with
fan-in and smurfing signals scores 50 and appears in the list. -/
theorem c1_flagged_iff_threshold_witness :
    (40 : ℚ) ≤ computeScore
      ⟨false, false, true, false, true, false, false, false, false, false, false,
        false, false, false⟩ ∧
    ∃ a ∈ (pipelineCore []
        ⟨[("M", ⟨false, false, true, false, true, false, false, false, false, false,
          false, false, false, false⟩)], [], fun _ => none, false⟩).suspicious_accounts,
      a.account_id = ("M", (⟨false, false, true, false, true, false, false, false,
        false, false, false, false, false, false⟩ : Features)).1 ∧
      a.suspicion_score = computeScore ("M", (⟨false, false, true, false, true, false,
        false, false, false, false, false, false, false, false⟩ : Features)).2 := by
  have hs : computeScore
      (⟨false, false, true, false, true, false, false, false, false, false, false,
        false, false, false⟩ : Features) = 50 := by
    norm_num [computeScore, primarySum, supportSum, suppressSum, hasPrimary, clamp]
  refine ⟨by rw [hs]; norm_num, ?_⟩
  exact (c1_flagged_iff_threshold []
    ⟨[("M", ⟨false, false, true, false, true, false, false, false, false, false,
      false, false, false, false⟩)], [], fun _ => none, false⟩).2.1
    ("M", ⟨false, false, true, false, true, false, false, false, false, false,
      false, false, false, false⟩) (by simp) (by rw [hs]; norm_num)

end MMD

namespace MMD

/-- Helper: membership in a merged cycle-ring member set. -/
theorem mem_mergedMembers (touched : List (List String)) (mem : List String)
    (x : String) :
    x ∈ mergedMembers touched mem ↔ (∃ r ∈ touched, x ∈ r) ∨ x ∈ mem := by
  induction touched with
  | nil => simp [mergedMembers]
  | cons r t ih =>
      simp only [mergedMembers, List.foldr_cons] at ih ⊢
      rw [List.mem_union_iff, ih]
      constructor
      · rintro (h | h | h)
        · exact Or.inl ⟨r, List.mem_cons_self r t, h⟩
        · obtain ⟨u, hu, hx⟩ := h
          exact Or.inl ⟨u, List.mem_cons_of_mem r hu, hx⟩
        · exact Or.inr h
      · rintro (⟨u, hu, hx⟩ | h)
        · rcases List.mem_cons.mp hu with rfl | hu2
          · exact Or.inl hx
          · exact Or.inr (Or.inl ⟨u, hu2, hx⟩)
        · exact Or.inr (Or.inr h)

/-- Helper: `addCycleRing` preserves the ring-assembly invariant: every
member is flagged, and the member sets are pairwise disjoint. -/
theorem addCycleRing_inv (flagged : List String) (rings : List (List String))
    (mem : List String)
    (hsub : ∀ r ∈ rings, ∀ x ∈ r, x ∈ flagged)
    (hmem : ∀ x ∈ mem, x ∈ flagged)
    (hdisj : List.Pairwise List.Disjoint rings) :
    (∀ r ∈ addCycleRing rings mem, ∀ x ∈ r, x ∈ flagged) ∧
      List.Pairwise List.Disjoint (addCycleRing rings mem) := by
  unfold addCycleRing
  split_ifs with hlen
  · constructor
    · intro r hr x hx
      rcases List.mem_cons.mp hr with rfl | hr2
      · rcases (mem_mergedMembers _ _ x).mp hx with ⟨u, hu, hxu⟩ | hxm
        · exact hsub u (List.mem_of_mem_filter hu) x hxu
        · exact hmem x hxm
      · exact hsub r (List.mem_of_mem_filter hr2) x hx
    · refine List.pairwise_cons.mpr ⟨?_, ?_⟩
      · intro u hu x hxmerged hxu
        have huMem : u ∈ rings := List.mem_of_mem_filter hu
        have huNot : ∀ y ∈ u, y ∉ mem := by
          have hu2 := (List.mem_filter.mp hu).2
          simp only [Bool.not_eq_true', List.any_eq_false, decide_eq_true_eq] at hu2
          exact hu2
        rcases (mem_mergedMembers _ _ x).mp hxmerged with ⟨t, ht, hxt⟩ | hxm
        · have htMem : t ∈ rings := List.mem_of_mem_filter ht
          have htu : t ≠ u := by
            intro he
            have h1 := (List.mem_filter.mp ht).2
            have h2 := (List.mem_filter.mp hu).2
            rw [he] at h1
            simp [h1] at h2
          have hd := hdisj.forall (fun a b hab => hab.symm) htMem huMem htu
          exact hd hxt hxu
        · exact huNot x hxu hxm
      · exact List.Pairwise.sublist (List.filter_sublist rings) hdisj
  · exact ⟨hsub, hdisj⟩

/-- Helper: the cycle-ring fold preserves the invariant from any starting
state that satisfies it. -/
theorem foldl_addCycle_inv (flagged : List String) (cycles : List (List String)) :
    ∀ rs, (∀ r ∈ rs, ∀ x ∈ r, x ∈ flagged) → List.Pairwise List.Disjoint rs →
      (∀ r ∈ cycles.foldl (fun a c => addCycleRing a (flaggedInCycle flagged c)) rs,
        ∀ x ∈ r, x ∈ flagged) ∧
      List.Pairwise List.Disjoint
        (cycles.foldl (fun a c => addCycleRing a (flaggedInCycle flagged c)) rs) := by
  induction cycles with
  | nil => intro rs h1 h2; exact ⟨h1, h2⟩
  | cons c t ih =>
      intro rs h1 h2
      simp only [List.foldl_cons]
      have hmem : ∀ x ∈ flaggedInCycle flagged c, x ∈ flagged := by
        intro x hx
        have hx2 := (List.mem_filter.mp hx).2
        simpa using hx2
      obtain ⟨h1a, h2a⟩ := addCycleRing_inv flagged rs (flaggedInCycle flagged c) h1 hmem h2
      exact ih _ h1a h2a

/-- Helper: the full cycle-ring stage keeps every member flagged and the
member sets pairwise disjoint. -/
theorem cycleRingSets_inv (flagged : List String) (cycles : List (List String)) :
    (∀ r ∈ cycleRingSets flagged cycles, ∀ x ∈ r, x ∈ flagged) ∧
      List.Pairwise List.Disjoint (cycleRingSets flagged cycles) := by
  unfold cycleRingSets
  exact foldl_addCycle_inv flagged cycles [] (by simp) List.Pairwise.nil

/-- Helper: community rings take only flagged accounts not already in a
cycle ring, and are pairwise disjoint. -/
theorem communityRingSets_inv (flagged : List String)
    (community : String → Option Nat) (cyc : List (List String)) :
    (∀ g ∈ communityRingSets flagged community cyc, ∀ x ∈ g,
      x ∈ flagged ∧ inRings cyc x = false) ∧
    List.Pairwise List.Disjoint (communityRingSets flagged community cyc) := by
  unfold communityRingSets
  constructor
  · intro g hg x hx
    have hg2 := List.mem_of_mem_filter hg
    obtain ⟨c, hc, rfl⟩ := List.mem_map.mp hg2
    have hx2 := List.mem_filter.mp hx
    have hx3 := List.mem_filter.mp hx2.1
    refine ⟨hx3.1, ?_⟩
    have := hx3.2
    simpa [Bool.not_eq_true'] using this
  · refine List.Pairwise.sublist (List.filter_sublist _) ?_
    rw [List.pairwise_map]
    refine (List.nodup_dedup _).imp ?_
    intro c1 c2 hne x hx1 hx2
    have e1 := (List.mem_filter.mp hx1).2
    have e2 := (List.mem_filter.mp hx2).2
    simp only [decide_eq_true_eq] at e1 e2
    exact hne (Option.some.inj (e1.symm.trans e2))

/-- Helper: every ring produced by `attachIds` carries a tag and member
set from the input list. -/
theorem mem_attachIds (l : List (String × List String)) :
    ∀ i r, r ∈ attachIds i l → (r.pattern_type, r.member_accounts) ∈ l := by
  induction l with
  | nil =>
      intro i r h
      simp [attachIds] at h
  | cons p t ih =>
      intro i r h
      rcases p with ⟨ty, mem⟩
      simp only [attachIds] at h
      rcases List.mem_cons.mp h with rfl | h2
      · simp
      · exact List.mem_cons_of_mem _ (ih (i + 1) r h2)

/-- Helper: `attachIds` transports a pairwise relation on member sets. -/
theorem attachIds_pairwise (S : List String → List String → Prop)
    (l : List (String × List String)) :
    ∀ i, List.Pairwise (fun p q => S p.2 q.2) l →
      List.Pairwise (fun r1 r2 => S r1.member_accounts r2.member_accounts)
        (attachIds i l) := by
  induction l with
  | nil => intro i _; simp [attachIds]
  | cons p t ih =>
      intro i h
      rcases p with ⟨ty, mem⟩
      rw [List.pairwise_cons] at h
      simp only [attachIds]
      refine List.pairwise_cons.mpr ⟨?_, ih (i + 1) h.2⟩
      intro r hr
      exact h.1 (r.pattern_type, r.member_accounts) (mem_attachIds t (i + 1) r hr)

/-- Helper: the assembled rings have flagged members only, and pairwise
disjoint member sets. -/
theorem assembleRings_inv (flagged : List String) (cycles : List (List String))
    (community : String → Option Nat) :
    (∀ r ∈ assembleRings flagged cycles community,
      ∀ m ∈ r.member_accounts, m ∈ flagged) ∧
    List.Pairwise (fun r1 r2 => r1.member_accounts.Disjoint r2.member_accounts)
      (assembleRings flagged cycles community) := by
  obtain ⟨hc1, hc2⟩ := cycleRingSets_inv flagged cycles
  obtain ⟨hm1, hm2⟩ := communityRingSets_inv flagged community (cycleRingSets flagged cycles)
  unfold assembleRings
  constructor
  · intro r hr m hm
    have hmem := mem_attachIds _ 0 r hr
    rcases List.mem_append.mp hmem with h | h
    · obtain ⟨mem, hmem2, he⟩ := List.mem_map.mp h
      have he2 : r.member_accounts = mem := (congrArg Prod.snd he).symm
      exact hc1 mem hmem2 m (he2 ▸ hm)
    · obtain ⟨mem, hmem2, he⟩ := List.mem_map.mp h
      have he2 : r.member_accounts = mem := (congrArg Prod.snd he).symm
      exact (hm1 mem hmem2 m (he2 ▸ hm)).1
  · refine attachIds_pairwise List.Disjoint _ 0 ?_
    rw [List.pairwise_append]
    refine ⟨?_, ?_, ?_⟩
    · rw [List.pairwise_map]
      exact hc2
    · rw [List.pairwise_map]
      exact hm2
    · intro p hp q hq
      obtain ⟨cm, hcm, rfl⟩ := List.mem_map.mp hp
      obtain ⟨gm, hgm, rfl⟩ := List.mem_map.mp hq
      intro x hx1 hx2
      have hgx := (hm1 gm hgm x hx2).2
      have hcx : inRings (cycleRingSets flagged cycles) x = true := by
        unfold inRings
        rw [List.any_eq_true]
        exact ⟨cm, hcm, by simpa using hx1⟩
      rw [hgx] at hcx
      cases hcx

/-- Helper: with pairwise-disjoint member sets, `find?` locates exactly
the ring a member belongs to. -/
theorem find?_ring_eq (rings : List FraudRing)
    (hdisj : List.Pairwise
      (fun r1 r2 => r1.member_accounts.Disjoint r2.member_accounts) rings)
    (r : FraudRing) (hr : r ∈ rings) (m : String) (hm : m ∈ r.member_accounts) :
    rings.find? (fun q => decide (m ∈ q.member_accounts)) = some r := by
  induction rings with
  | nil => cases hr
  | cons a t ih =>
      rcases List.mem_cons.mp hr with rfl | hr2
      · rw [List.find?_cons_of_pos]
        simpa using hm
      · have hna : m ∉ a.member_accounts := by
          intro hma
          exact (List.pairwise_cons.mp hdisj).1 r hr2 hma hm
        rw [List.find?_cons_of_neg]
        · exact ih (List.pairwise_cons.mp hdisj).2 hr2
        · simpa using hna

/-- Claim C6: in every pipeline result, every ring_id referenced by a
listed account names a ring present in fraud_rings; every ring member
appears in suspicious_accounts carrying a ring_id pointing back to that
ring; the rings' member sets are pairwise disjoint (each account belongs
to at most one ring); and no community-ring member sits in a cycle ring
(cycle precedence). -/
theorem c6_ring_cross_links (edges : List EdgeAggregate) (ex : Extracted) :
    (∀ a ∈ (pipelineCore edges ex).suspicious_accounts, ∀ rid,
      a.ring_id = some rid →
        ∃ r ∈ (pipelineCore edges ex).fraud_rings, r.ring_id = rid) ∧
    (∀ r ∈ (pipelineCore edges ex).fraud_rings, ∀ m ∈ r.member_accounts,
      ∃ a ∈ (pipelineCore edges ex).suspicious_accounts,
        a.account_id = m ∧ a.ring_id = some r.ring_id) ∧
    List.Pairwise (fun r1 r2 => r1.member_accounts.Disjoint r2.member_accounts)
      (pipelineCore edges ex).fraud_rings ∧
    (∀ r ∈ (pipelineCore edges ex).fraud_rings, r.pattern_type = "community" →
      ∀ r2 ∈ (pipelineCore edges ex).fraud_rings, r2.pattern_type = "cycle" →
        ∀ m ∈ r.member_accounts, m ∉ r2.member_accounts) := by
  obtain ⟨hsub, hdisj⟩ := assembleRings_inv
    ((suspiciousOf (scoreAccounts ex.feats)).map (fun a => a.account_id))
    ex.cycles ex.community
  have hringsEq : (pipelineCore edges ex).fraud_rings =
      assembleRings ((suspiciousOf (scoreAccounts ex.feats)).map (fun a => a.account_id))
        ex.cycles ex.community := rfl
  refine ⟨?_, ?_, ?_, ?_⟩
  · intro a ha rid hrid
    simp only [pipelineCore, bundleSort] at ha
    obtain ⟨a0, ha0, rfl⟩ := List.mem_map.mp ha
    simp only [accountRingId, Option.map_eq_some'] at hrid
    obtain ⟨q, hq, hqid⟩ := hrid
    exact ⟨q, by rw [hringsEq]; exact List.mem_of_find?_eq_some hq, hqid⟩
  · intro r hr m hm
    rw [hringsEq] at hr
    have hmf := hsub r hr m hm
    obtain ⟨a0, ha0, ha0id⟩ := List.mem_map.mp hmf
    refine ⟨(⟨a0.account_id, a0.suspicion_score,
      accountRingId (assembleRings
        ((suspiciousOf (scoreAccounts ex.feats)).map (fun a => a.account_id))
        ex.cycles ex.community) a0.account_id⟩ : AccountScore), ?_, ha0id, ?_⟩
    · simp only [pipelineCore, bundleSort]
      refine List.mem_map.mpr ⟨a0, ?_, rfl⟩
      exact (List.mem_insertionSort scoreIdOrder).mpr ha0
    · simp only [accountRingId]
      rw [ha0id, find?_ring_eq _ hdisj r hr m hm]
      rfl
  · rw [hringsEq]
    exact hdisj
  · intro r hr hcomm r2 hr2 hcyc m hm hm2
    rw [hringsEq] at hr hr2
    have hne : r ≠ r2 := by
      intro he
      rw [he, hcyc] at hcomm
      exact absurd hcomm (by decide)
    have hd := hdisj.forall (fun a b hab => hab.symm) hr hr2 hne
    exact hd hm hm2

end MMD

namespace MMD

/-- Concrete instantiation of `c6_ring_cross_links`: two accounts in one
validated cycle form RING_001, and member A of that ring appears in the
suspicious list pointing back at it. -/
theorem c6_ring_cross_links_witness :
    ∃ a ∈ (pipelineCore []
      ⟨[("A", ⟨true, false, false, false, false, false, false, false, false, false,
          false, false, false, false⟩),
        ("B", ⟨true, false, false, false, false, false, false, false, false, false,
          false, false, false, false⟩)],
        [["A", "B"]], fun _ => none, false⟩).suspicious_accounts,
      a.account_id = "A" ∧ a.ring_id = some "RING_001" := by
  have hs : computeScore
      (⟨true, false, false, false, false, false, false, false, false, false,
        false, false, false, false⟩ : Features) = 40 := by
    norm_num [computeScore, primarySum, supportSum, suppressSum, hasPrimary, clamp]
  refine (c6_ring_cross_links []
    ⟨[("A", ⟨true, false, false, false, false, false, false, false, false, false,
        false, false, false, false⟩),
      ("B", ⟨true, false, false, false, false, false, false, false, false, false,
        false, false, false, false⟩)],
      [["A", "B"]], fun _ => none, false⟩).2.1
    ⟨"RING_001", ["A", "B"], "cycle"⟩ ?_ "A" (by decide)
  simp only [pipelineCore, scoreAccounts, List.map_cons, List.map_nil, hs]
  decide

end MMD
